import Mathlib

/-
Verification development for the pisnge chart library.

Shallow embedding conventions:
* Rust `&str` values are modelled as `String` or `List Char`; all string
  machinery used by the embedded code is defined here on `List Char` so that
  every definition evaluates by kernel reduction.
* Rust `f64` arithmetic is modelled exactly over `ℚ`.  The geometric claims
  proved exactly over `ℚ` imply the corresponding within-epsilon floating
  point statements.  Where `f64` produces NaN (division by a zero total) the
  divergence is discussed at the relevant theorem.
* Rust `HashMap<String, String>` is modelled as an association list with
  overwriting insert; only insertion and lookup are used by the code.
* Angles of the pie renderer are recorded in units of pi: the source value
  `-PI / 2.0` is the model value `-(1/2)`, and a full circle (`2.0 * PI`)
  is the model value `2`.
-/

namespace Pisnge

/-! ## Character and string utilities shared by the embedded parsers -/

/-- The single-quote character. -/
def sqChar : Char := Char.ofNat 39

/-- The double-quote character. -/
def dqChar : Char := Char.ofNat 34

/-- The opening-brace character. -/
def lbrace : Char := Char.ofNat 123

/-- The closing-brace character. -/
def rbrace : Char := Char.ofNat 125

/-- Whitespace recognized by nom's `multispace0`: space, tab, newline, carriage return. -/
def isNomMultispace (c : Char) : Bool :=
  c == ' ' || c == '\t' || c == '\n' || c == '\r'

/-- Whitespace recognized by nom's `space0`: space and tab. -/
def isNomSpace (c : Char) : Bool :=
  c == ' ' || c == '\t'

/-- Drop leading characters satisfying `p` (the remaining-input part of a
`take_while`-style combinator). -/
def dropLeading (p : Char → Bool) (cs : List Char) : List Char :=
  cs.dropWhile p

/-- Rust `str::trim` (on the ASCII whitespace relevant here), over `List Char`. -/
def trimChars (cs : List Char) : List Char :=
  ((cs.dropWhile Char.isWhitespace).reverse.dropWhile Char.isWhitespace).reverse

/-- Rust `str::trim_matches(c)`: strip every leading and trailing occurrence of `c`. -/
def trimMatches (c : Char) (cs : List Char) : List Char :=
  ((cs.dropWhile (· == c)).reverse.dropWhile (· == c)).reverse

/-- Rust's `current_key.trim().trim_matches('\x27').trim_matches('\x22')`
used by the config preprocessor when cleaning keys and values. -/
def trimKeyQuotes (cs : List Char) : List Char :=
  trimMatches dqChar (trimMatches sqChar (trimChars cs))

/-- Index of the first occurrence of `pat` in `hay` (Rust `str::find`). -/
def findSub (pat : List Char) : List Char → Option Nat
  | [] => if pat = [] then some 0 else none
  | c :: rest =>
    if pat.isPrefixOf (c :: rest) then some 0
    else (findSub pat rest).map (· + 1)

/-- Index of the first occurrence of the single character `c` (Rust `str::find(char)`). -/
def findChar (c : Char) (hay : List Char) : Option Nat :=
  findSub [c] hay

/-! ## Chart-type detector (src/common/parser.rs) -/

/-- The three chart dialects (src/common/parser.rs, `enum ChartType`). -/
inductive ChartType where
  | pie
  | xy
  | workItemMovement
deriving DecidableEq, Repr

/-- The terminal detector failure: no keyword matched.  The source returns a
nom `ErrorKind::Tag` error here; the specification names this terminal
failure `UnknownChartType`. -/
inductive ChartDetectError where
  | unknownChartType
deriving DecidableEq, Repr

/-- Keyword for work-item-movement charts. -/
def wimKeyword : List Char := "work-item-movement".data

/-- Keyword for XY charts. -/
def xyKeyword : List Char := "xychart-beta".data

/-- Keyword for pie charts. -/
def pieKeyword : List Char := "pie".data

/-- `detect_chart_type` (src/common/parser.rs lines 15-38): skip leading
whitespace, then try the fixed keywords in order work-item-movement,
xychart-beta, pie; on success return the remaining input and the chart type,
otherwise the terminal error. -/
def detect_chart_type (input : List Char) : Except ChartDetectError (List Char × ChartType) :=
  let rest := input.dropWhile isNomMultispace
  if wimKeyword.isPrefixOf rest then
    Except.ok (rest.drop wimKeyword.length, ChartType.workItemMovement)
  else if xyKeyword.isPrefixOf rest then
    Except.ok (rest.drop xyKeyword.length, ChartType.xy)
  else if pieKeyword.isPrefixOf rest then
    Except.ok (rest.drop pieKeyword.length, ChartType.pie)
  else
    Except.error ChartDetectError.unknownChartType

/-! ## Work-item-movement data model and validation
(src/work_item_movement/mod.rs, src/work_item_movement/parser.rs) -/

/-- A chart configuration (src/common/mod.rs, `struct ChartConfig`).  The
`HashMap` of theme variables is modelled as an association list with
overwriting insertion. -/
structure ChartConfig where
  theme : String
  theme_variables : List (String × String)
  width : Option Nat
deriving DecidableEq, Repr

/-- `HashMap::insert`: overwrite the binding of `k` if present, else add it. -/
def insertVar (m : List (String × String)) (k v : String) : List (String × String) :=
  if m.any (fun p => p.1 == k) then
    m.map (fun p => if p.1 == k then (k, v) else p)
  else
    m ++ [(k, v)]

/-- `HashMap::get`. -/
def lookupVar (m : List (String × String)) (k : String) : Option String :=
  (m.find? (fun p => p.1 == k)).map Prod.snd

/-- A work item (src/work_item_movement/mod.rs, `struct WorkItem`); the parser
produces integer point values. -/
structure WorkItem where
  id : String
  from_state : String
  from_points : Int
  to_state : String
  to_points : Int
deriving DecidableEq, Repr

/-- `WorkItem::points_change`. -/
def WorkItem.points_change (it : WorkItem) : Int :=
  it.to_points - it.from_points

/-- A work-item-movement chart (src/work_item_movement/mod.rs). -/
structure WorkItemMovement where
  config : Option ChartConfig
  title : Option String
  columns : List String
  items : List WorkItem
deriving DecidableEq, Repr

/-- Rust `str::to_lowercase`, restricted to the ASCII range on which the
embedded inputs live (`Char.toLower` agrees with Rust there). -/
def rustLowercase (s : String) : String :=
  String.mk (s.data.map Char.toLower)

/-- The case-insensitive membership test used by
`validate_work_item_movement`: some column lowercases to the same string as
the state. -/
def stateMatchesColumns (cols : List String) (s : String) : Bool :=
  cols.any (fun col => rustLowercase col == rustLowercase s)

/-- `struct ValidationError` (src/work_item_movement/parser.rs lines 14-17). -/
structure ValidationError where
  message : String
deriving DecidableEq, Repr

/-- Rust's `{:?}` debug formatting of a `Vec<String>` (no escaping occurs in
the inputs considered). -/
def debugFormatColumns (cols : List String) : String :=
  "[" ++ String.intercalate ", " (cols.map (fun c => "\x22" ++ c ++ "\x22")) ++ "]"

/-- The validation-error message built at
src/work_item_movement/parser.rs lines 134-136 and 142-145. -/
def invalidColumnMessage (id state : String) (cols : List String) : String :=
  "Work item \x27" ++ id ++ "\x27 references column \x27" ++ state ++
    "\x27 which does not exist. Available columns are: " ++ debugFormatColumns cols

/-- The item loop of `validate_work_item_movement`: check `from_state` then
`to_state` of each item in order, stopping at the first violation. -/
def validateItems (cols : List String) : List WorkItem → Except ValidationError Unit
  | [] => Except.ok ()
  | it :: rest =>
    if ¬ stateMatchesColumns cols it.from_state then
      Except.error ⟨invalidColumnMessage it.id it.from_state cols⟩
    else if ¬ stateMatchesColumns cols it.to_state then
      Except.error ⟨invalidColumnMessage it.id it.to_state cols⟩
    else
      validateItems cols rest

/-- `validate_work_item_movement` (src/work_item_movement/parser.rs lines
128-150).  The Rust function takes the chart by shared reference and returns
only a `Result`, so it cannot mutate the document; the model is accordingly a
pure function. -/
def validate_work_item_movement (chart : WorkItemMovement) : Except ValidationError Unit :=
  validateItems chart.columns chart.items

/-! ## Pie-chart data model and slice geometry (src/pie_chart/mod.rs,
src/pie_chart/renderer.rs) -/

/-- One pie datum (src/pie_chart/mod.rs, `struct PieChartData`); the `f64`
value is modelled over `ℚ`. -/
structure PieChartData where
  label : String
  value : ℚ
deriving DecidableEq, Repr

/-- A pie chart document (src/pie_chart/mod.rs, `struct PieChart`). -/
structure PieChart where
  config : Option ChartConfig
  show_data : Bool
  title : Option String
  data : List PieChartData
deriving DecidableEq, Repr

/-- `let total: f64 = pie_chart.data.iter().map(|d| d.value).sum()`
(src/pie_chart/renderer.rs line 81). -/
def pieTotal (p : PieChart) : ℚ :=
  (p.data.map PieChartData.value).sum

/-- One slice emitted by the slice loop of `render_pie_chart_svg`.  Angles
are in units of pi (source radians divided by pi), so the initial
`-PI / 2.0` is `-(1/2)` and a full circle is `2`. -/
structure PieSlice where
  label : String
  startAngle : ℚ
  endAngle : ℚ
  span : ℚ
deriving DecidableEq, Repr

/-- The slice loop of `render_pie_chart_svg`
(src/pie_chart/renderer.rs lines 135-177): starting at `current_angle`, emit
one slice per datum, in data order, each spanning
`(value / total) * 2 * pi`; the loop has no guard on `total`, so over `f64`
a zero total makes every `value / total` equal to `0.0 / 0.0 = NaN` while
still emitting one path per datum.  (`ℚ` renders the `0 / 0` as `0`; the
fact preserved exactly is which slices are emitted.) -/
def pieSlicesFrom (total : ℚ) (current : ℚ) : List PieChartData → List PieSlice
  | [] => []
  | d :: rest =>
    let span := d.value / total * 2
    { label := d.label, startAngle := current, endAngle := current + span, span := span } ::
      pieSlicesFrom total (current + span) rest

/-- All slices emitted by `render_pie_chart_svg`, starting at `-PI / 2.0`
(model angle `-(1/2)`). -/
def pieSlices (p : PieChart) : List PieSlice :=
  pieSlicesFrom (pieTotal p) (-(1/2 : ℚ)) p.data

/-! ## Work-item-movement layout (src/work_item_movement/renderer.rs) -/

/-- The fixed layout margin of `render_work_item_movement_svg` (line 20). -/
def wimMargin : ℚ := 20

/-- `vertical_arrow_spacing` (line 87). -/
def verticalArrowSpacing : ℚ := 80

/-- `item_height` (line 25). -/
def wimItemHeight : ℚ := 50

/-- The character-count fallback for a column label's width when no font data
is available: `col.len() as f64 * 8.0` (line 50). -/
def columnWidthsFallback (columns : List String) : List ℚ :=
  columns.map (fun col => (col.length : ℚ) * 8)

/-- The column x-positions computed at
src/work_item_movement/renderer.rs lines 56-79 from the canvas width and the
measured column label widths: a single column is centered at `width / 2`;
otherwise position 0 is `margin + w₀ / 2`, position `n-1` is
`width - margin - wₙ₋₁ / 2`, and interior positions sit at equal spacing
between them. -/
def columnPositions (width : ℚ) (ws : List ℚ) : List ℚ :=
  match ws with
  | [] => []
  | [_] => [width / 2]
  | w0 :: _ :: _ =>
    let n := ws.length
    let firstLinePos := wimMargin + w0 / 2
    let lastLinePos := width - wimMargin - (ws.getLastD 0) / 2
    let spacing := (lastLinePos - firstLinePos) / ((n : ℚ) - 1)
    (List.range n).map (fun i =>
      if i = 0 then firstLinePos
      else if i = n - 1 then lastLinePos
      else firstLinePos + (i : ℚ) * spacing)

/-- The column index of a state as computed by the renderer
(src/work_item_movement/renderer.rs lines 94-104 and 237-246):
`columns.iter().position(|c| c == &state).unwrap_or(0)` — first index whose
column is **exactly** equal to the state, silently falling back to 0. -/
def columnIndexOf (cols : List String) (state : String) : Nat :=
  (cols.findIdx? (fun c => c == state)).getD 0

/-- The x-coordinate the renderer assigns to an item endpoint:
`column_positions[idx]` for the index found by `columnIndexOf`
(lines 248-249). -/
def itemEndpointX (cols : List String) (positions : List ℚ) (state : String) : ℚ :=
  positions.getD (columnIndexOf cols state) 0

/-- The per-item row advancement shared by the total-height computation
(lines 94-113), the column guide-line replay (lines 199-218) and the item
loop (lines 484-490): a vertical movement (equal column indices) advances by
`vertical_arrow_spacing + item_height`, a horizontal one by `item_height`. -/
def rowAdvance (cols : List String) (it : WorkItem) : ℚ :=
  if columnIndexOf cols it.from_state = columnIndexOf cols it.to_state then
    verticalArrowSpacing + wimItemHeight
  else
    wimItemHeight

/-- The `calc_y` accumulation of the total-height computation
(src/work_item_movement/renderer.rs lines 92-113) starting from `items_top`. -/
def wimCalcY (cols : List String) (itemsTop : ℚ) (items : List WorkItem) : ℚ :=
  items.foldl (fun y it => y + rowAdvance cols it) itemsTop

/-! ## XY-chart y-axis ticks and label space (src/xychart/renderer.rs) -/

/-- The y-axis of an XY chart (src/xychart/mod.rs, `struct YAxis`). -/
structure YAxis where
  title : String
  min : ℚ
  max : ℚ
deriving DecidableEq, Repr

/-- Truncation toward zero, Rust's `as i32` conversion on the in-range finite
values occurring here. -/
def ratTruncToInt (q : ℚ) : Int :=
  if 0 ≤ q then Int.floor q else Int.ceil q

/-- The eleven y-axis tick values generated at
src/xychart/renderer.rs lines 418-421: for `i = 0..10`,
`max - i * (max - min) / 10`. -/
def yTickValues (y : YAxis) : List ℚ :=
  (List.range 11).map (fun i : Nat => y.max - (i : ℚ) * (y.max - y.min) / 10)

/-- The tick-label measurement loop of lines 69-79 (the branch with font
metrics available, `measure` standing for the glyph-metrics collaborator
applied to the label text `format!("{}", value as i32)`): the maximum
measured width over the same eleven interpolated values, starting from 0. -/
def maxYLabelWidth (measure : String → ℚ) (y : YAxis) : ℚ :=
  ((List.range 11).map (fun i : Nat =>
      measure (toString (ratTruncToInt (y.max - (i : ℚ) * (y.max - y.min) / 10))))).foldl
    max 0

/-- `label_to_axis_gap + title_to_labels_gap + axis_title_width`
(src/xychart/renderer.rs lines 114-116): 10 + 12 + 20. -/
def yAxisFixedSpace : ℚ := 10 + 12 + 20

/-- `y_axis_label_space` (src/xychart/renderer.rs lines 117-118), in the
metrics-available branch. -/
def yAxisLabelSpace (measure : String → ℚ) (y : YAxis) : ℚ :=
  maxYLabelWidth measure y + yAxisFixedSpace

/-! ## Config preprocessor (src/common/mod.rs)

The theme-variable object is parsed by two character-level state machines,
translated here with an explicit fuel argument that is initialized to more
than the input length (each iteration of the source loops consumes at least
one character, so the fuel never runs out on the actual calls). -/

/-- State of the `parse_theme_variables` loop (src/common/mod.rs lines
81-87): brace depth, the key and value accumulators, and the three mode
flags. -/
structure TVState where
  braceCount : Int
  key : List Char
  val : List Char
  inKey : Bool
  inValue : Bool
  inQuotes : Bool
deriving Repr

/-- The inner `while` of the `'\x7b'` arm (src/common/mod.rs lines 97-111):
consume the balanced nested object, collecting its characters (the closing
brace excluded), toggling `in_quotes` on double quotes; returns the nested
content, the rest of the input, and the final `in_quotes`. -/
def consumeNested (fuel : Nat) (inQuotes : Bool) (count : Int) (acc cs : List Char) :
    List Char × List Char × Bool :=
  match fuel, cs with
  | 0, cs => (acc, cs, inQuotes)
  | _, [] => (acc, [], inQuotes)
  | fuel + 1, c :: rest =>
    if c = lbrace ∧ ¬ inQuotes then
      consumeNested fuel inQuotes (count + 1) (acc ++ [c]) rest
    else if c = rbrace ∧ ¬ inQuotes then
      if count - 1 = 0 then (acc, rest, inQuotes)
      else consumeNested fuel inQuotes (count - 1) (acc ++ [c]) rest
    else if c = dqChar then
      consumeNested fuel (¬ inQuotes) count (acc ++ [c]) rest
    else
      consumeNested fuel inQuotes count (acc ++ [c]) rest

/-- State of the `parse_nested_theme_variables` loop (src/common/mod.rs
lines 192-198). -/
structure NestedState where
  key : List Char
  val : List Char
  inKey : Bool
  inValue : Bool
  inQuotes : Bool
  quoteChar : Char
deriving Repr

/-- The flattened key `format!("\x7b\x7d.\x7b\x7d", prefix, key.trim())`
inserted by `parse_nested_theme_variables` (src/common/mod.rs lines 217-219). -/
def nestedKeyFull (pfx : String) (key : List Char) : String :=
  pfx ++ "." ++ String.mk (trimChars key)

/-- The conditional insertion performed by `parse_nested_theme_variables` on
a `,` and at end of input (src/common/mod.rs lines 216-221 and 242-247). -/
def nestedFlush (pfx : String) (m : List (String × String)) (key val : List Char) :
    List (String × String) :=
  if key ≠ [] ∧ val ≠ [] then
    insertVar m (nestedKeyFull pfx key) (String.mk (trimChars val))
  else m

/-- The character loop of `parse_nested_theme_variables`
(src/common/mod.rs lines 200-247). -/
def nestedLoop (pfx : String) : Nat → List Char → NestedState → List (String × String) →
    List (String × String)
  | 0, _, st, m => nestedFlush pfx m st.key st.val
  | _, [], st, m => nestedFlush pfx m st.key st.val
  | fuel + 1, c :: rest, st, m =>
    if c = dqChar ∨ c = sqChar then
      if ¬ st.inQuotes then
        nestedLoop pfx fuel rest { st with inQuotes := true, quoteChar := c } m
      else if c = st.quoteChar then
        nestedLoop pfx fuel rest { st with inQuotes := false } m
      else
        nestedLoop pfx fuel rest st m
    else if c = ':' ∧ ¬ st.inQuotes then
      nestedLoop pfx fuel rest { st with inKey := false, inValue := true } m
    else if c = ',' ∧ ¬ st.inQuotes then
      nestedLoop pfx fuel rest
        { st with key := [], val := [], inKey := false, inValue := false }
        (nestedFlush pfx m st.key st.val)
    else
      let inKey' :=
        if ¬ st.inKey ∧ ¬ st.inValue ∧ (c.isAlpha ∨ c = dqChar ∨ c = sqChar) then true
        else st.inKey
      if st.inValue then
        nestedLoop pfx fuel rest { st with val := st.val ++ [c] } m
      else if inKey' ∧ c ≠ dqChar ∧ c ≠ sqChar then
        nestedLoop pfx fuel rest { st with inKey := inKey', key := st.key ++ [c] } m
      else
        nestedLoop pfx fuel rest { st with inKey := inKey' } m

/-- `parse_nested_theme_variables` (src/common/mod.rs lines 186-248). -/
def parse_nested_theme_variables (content : List Char) (pfx : String)
    (m : List (String × String)) : List (String × String) :=
  nestedLoop pfx (content.length + 1) content
    { key := [], val := [], inKey := false, inValue := false, inQuotes := false,
      quoteChar := dqChar } m

/-- The conditional insertion performed by `parse_theme_variables` with
`trim().trim_matches` cleaning (src/common/mod.rs lines 131-135, 154-158 and
179-183). -/
def mainFlush (m : List (String × String)) (key val : List Char) :
    List (String × String) :=
  if key ≠ [] ∧ val ≠ [] then
    insertVar m (String.mk (trimKeyQuotes key)) (String.mk (trimKeyQuotes val))
  else m

/-- The character loop of `parse_theme_variables`
(src/common/mod.rs lines 89-183), including the nested-object arm. -/
def tvLoop : Nat → List Char → TVState → List (String × String) →
    List (String × String)
  | 0, _, st, m => mainFlush m st.key st.val
  | _, [], st, m => mainFlush m st.key st.val
  | fuel + 1, c :: rest, st, m =>
    if c = lbrace then
      let bc' := st.braceCount + 1
      if bc' = 1 ∧ ¬ st.inQuotes then
        if st.key ≠ [] then
          let r := consumeNested rest.length st.inQuotes 1 [] rest
          let m' := parse_nested_theme_variables r.1 (String.mk (trimKeyQuotes st.key)) m
          tvLoop fuel r.2.1
            { braceCount := 0, key := [], val := st.val, inKey := false,
              inValue := false, inQuotes := r.2.2 } m'
        else
          tvLoop fuel rest { st with braceCount := bc' } m
      else if ¬ st.inQuotes then
        tvLoop fuel rest { st with braceCount := bc', val := st.val ++ [c] } m
      else
        tvLoop fuel rest { st with braceCount := bc' } m
    else if c = rbrace then
      let bc' := if st.braceCount > 0 then st.braceCount - 1 else st.braceCount
      if bc' = 0 ∧ ¬ st.inQuotes then
        mainFlush m st.key st.val
      else if ¬ st.inQuotes then
        tvLoop fuel rest { st with braceCount := bc', val := st.val ++ [c] } m
      else
        tvLoop fuel rest { st with braceCount := bc' } m
    else if c = dqChar ∨ c = sqChar then
      if st.inValue then
        tvLoop fuel rest { st with inQuotes := ¬ st.inQuotes, val := st.val ++ [c] } m
      else if st.inKey then
        tvLoop fuel rest { st with inQuotes := ¬ st.inQuotes, key := st.key ++ [c] } m
      else
        tvLoop fuel rest { st with inQuotes := ¬ st.inQuotes } m
    else if c = ':' ∧ ¬ st.inQuotes then
      tvLoop fuel rest { st with inKey := false, inValue := true } m
    else if c = ',' ∧ ¬ st.inQuotes ∧ st.braceCount = 0 then
      tvLoop fuel rest { st with key := [], val := [], inKey := true, inValue := false }
        (mainFlush m st.key st.val)
    else
      let inKey' := if ¬ st.inKey ∧ ¬ st.inValue ∧ c.isAlpha then true else st.inKey
      if st.inValue then
        tvLoop fuel rest { st with inKey := inKey', val := st.val ++ [c] } m
      else if inKey' then
        tvLoop fuel rest { st with inKey := inKey', key := st.key ++ [c] } m
      else
        tvLoop fuel rest { st with inKey := inKey' } m

/-- `parse_theme_variables` (src/common/mod.rs lines 80-184). -/
def parse_theme_variables (content : List Char) (m : List (String × String)) :
    List (String × String) :=
  tvLoop (content.length + 1) content
    { braceCount := 0, key := [], val := [], inKey := false, inValue := false,
      inQuotes := false } m

/-- Rust `u32::from_str` on a trimmed slice: optional `+` sign, at least one
digit, value within `u32` range. -/
def parseU32 (cs : List Char) : Option Nat :=
  let cs' := match cs with
    | c :: rest => if c = '+' then rest else c :: rest
    | [] => []
  if cs' ≠ [] ∧ cs'.all Char.isDigit then
    let n := cs'.foldl (fun acc c => acc * 10 + (c.toNat - 48)) 0
    if n < 4294967296 then some n else none
  else none

/-- `config_line` (src/common/mod.rs lines 34-78): requires the literal
header opener, takes the content up to the closing token, then extracts
`theme` (only from the single-quoted pattern), `width` (only from the
single-quoted pattern, up to the first comma or closing brace), and
`themeVariables` (only from the single-quoted pattern). -/
def config_line (input : List Char) : Option (ChartConfig × List Char) :=
  let opener := "%%\x7binit: ".data
  if opener.isPrefixOf input then
    let afterTag := input.drop opener.length
    match findSub "\x7d%%".data afterTag with
    | none => none
    | some i =>
      let configContent := afterTag.take i
      let remaining := (afterTag.drop i).drop 3
      let theme :=
        match findSub "\x27theme\x27: \x27".data configContent with
        | some j =>
          let themeContent := configContent.drop (j + 10)
          match findChar sqChar themeContent with
          | some k => String.mk (themeContent.take k)
          | none => "base"
        | none => "base"
      let width :=
        match findSub "\x27width\x27: ".data configContent with
        | some j =>
          let widthContent := configContent.drop (j + 9)
          let stop :=
            ((findChar ',' widthContent).orElse fun _ =>
              findChar rbrace widthContent).getD widthContent.length
          parseU32 (trimChars (widthContent.take stop))
        | none => none
      let vars :=
        match findSub "\x27themeVariables\x27: \x7b".data configContent with
        | some j => parse_theme_variables (configContent.drop (j + 19)) []
        | none => []
      some ({ theme := theme, theme_variables := vars, width := width }, remaining)
  else none

/-- `config_line` applied to a `String` input. -/
def configLineStr (input : String) : Option (ChartConfig × List Char) :=
  config_line input.data

/-! ## XY-chart data model and content parser (src/xychart/mod.rs,
src/xychart/content_parser.rs)

nom combinators are embedded as functions `List Char → Option (α × List Char)`
returning the parsed value and the remaining input. -/

/-- `struct XAxis` (src/xychart/mod.rs). -/
structure XAxis where
  labels : List String
deriving DecidableEq, Repr

/-- `enum SeriesType` (src/xychart/mod.rs). -/
inductive SeriesType where
  | bar
  | line
deriving DecidableEq, Repr

/-- `struct Series` (src/xychart/mod.rs); `f64` data over `ℚ`. -/
structure Series where
  series_type : SeriesType
  data : List ℚ
deriving DecidableEq, Repr

/-- `struct XYChart`.  The `legend` field is
Modelled from the spec: `legend: optional<ordered list<string>>` — the field
is read by src/xychart/renderer.rs (`xychart.legend` at lines 49 and 472)
but its declaration is missing from the `struct XYChart` snapshot in
src/xychart/mod.rs, whose remaining fields are as declared there. -/
structure XYChart where
  config : Option ChartConfig
  title : Option String
  legend : Option (List String)
  x_axis : XAxis
  y_axis : YAxis
  series : List Series
deriving DecidableEq, Repr

/-- nom `tag`. -/
def tagP (kw cs : List Char) : Option (List Char) :=
  if kw.isPrefixOf cs then some (cs.drop kw.length) else none

/-- nom `char`. -/
def charP (c : Char) : List Char → Option (List Char)
  | x :: rest => if x = c then some rest else none
  | [] => none

/-- nom `multispace0` (remaining input). -/
def ms0 (cs : List Char) : List Char :=
  cs.dropWhile isNomMultispace

/-- nom `space0` (remaining input). -/
def sp0 (cs : List Char) : List Char :=
  cs.dropWhile isNomSpace

/-- nom `take_until`. -/
def takeUntilP (pat cs : List Char) : Option (List Char × List Char) :=
  (findSub pat cs).map fun i => (cs.take i, cs.drop i)

/-- `quoted_string` (src/xychart/content_parser.rs lines 20-22):
`delimited(char('\x22'), take_until("\x22"), char('\x22'))`. -/
def quotedStringDq (cs : List Char) : Option (List Char × List Char) :=
  match charP dqChar cs with
  | none => none
  | some rest =>
    match takeUntilP [dqChar] rest with
    | none => none
    | some (content, rest2) => (charP dqChar rest2).map fun rest3 => (content, rest3)

/-- `quoted_string_single` (src/xychart/content_parser.rs lines 24-26). -/
def quotedStringSq (cs : List Char) : Option (List Char × List Char) :=
  match charP sqChar cs with
  | none => none
  | some rest =>
    match takeUntilP [sqChar] rest with
    | none => none
    | some (content, rest2) => (charP sqChar rest2).map fun rest3 => (content, rest3)

/-- nom `digit1`. -/
def digits1 (cs : List Char) : Option (List Char × List Char) :=
  let ds := cs.takeWhile Char.isDigit
  if ds = [] then none else some (ds, cs.drop ds.length)

/-- Decimal value of a digit run. -/
def natOfDigits (ds : List Char) : Nat :=
  ds.foldl (fun acc c => acc * 10 + (c.toNat - 48)) 0

/-- `number` (src/common/mod.rs lines 23-32): optional `-`, digits, optional
`.` + digits, parsed as `f64` (modelled exactly over `ℚ`). -/
def numberP (cs : List Char) : Option (ℚ × List Char) :=
  let signed : Bool × List Char :=
    match cs with
    | c :: rest => if c = '-' then (true, rest) else (false, cs)
    | [] => (false, [])
  match digits1 signed.2 with
  | none => none
  | some (ip, cs2) =>
    let intPart : ℚ := (natOfDigits ip : ℚ)
    let frac : ℚ × List Char :=
      match cs2 with
      | c :: cs3 =>
        if c = '.' then
          match digits1 cs3 with
          | some (fp, cs4) => (intPart + (natOfDigits fp : ℚ) / ((10 : ℚ) ^ fp.length), cs4)
          | none => (intPart, cs2)
        else (intPart, cs2)
      | [] => (intPart, cs2)
    some (if signed.1 then -frac.1 else frac.1, frac.2)

/-- `take_until_any` (src/xychart/content_parser.rs lines 96-114): consume up
to (excluding) the first character in `stop`, failing when nothing would be
consumed. -/
def takeUntilAny (stop : List Char) (cs : List Char) : Option (List Char × List Char) :=
  let pre := cs.takeWhile (fun c => ¬ stop.contains c)
  if pre = [] then none else some (pre, cs.drop pre.length)

/-- `parse_label` (src/xychart/content_parser.rs lines 28-44): skip
whitespace, try double-quoted, then single-quoted, then the unquoted run up
to `,` or `]`, trimmed. -/
def parse_label (cs : List Char) : Option (String × List Char) :=
  let cs1 := ms0 cs
  match quotedStringDq cs1 with
  | some (content, rest) => some (String.mk content, rest)
  | none =>
    match quotedStringSq cs1 with
    | some (content, rest) => some (String.mk content, rest)
    | none =>
      (takeUntilAny [',', ']'] cs1).map fun r => (String.mk (trimChars r.1), r.2)

/-- The loop of `parse_labels_list` (src/xychart/content_parser.rs lines
46-84); the closing `]` is left in the remaining input. -/
def labelsLoop : Nat → List Char → List String → Option (List String × List Char)
  | 0, _, _ => none
  | fuel + 1, cs, acc =>
    let rem := ms0 cs
    if rem.head? = some ']' then some (acc, rem)
    else
      match parse_label rem with
      | none => none
      | some (label, rem2) =>
        let rem3 := ms0 rem2
        match rem3 with
        | c2 :: rest2 =>
          if c2 = ',' then labelsLoop fuel rest2 (acc ++ [label])
          else if c2 = ']' then some (acc ++ [label], rem3)
          else none
        | [] => none

/-- `parse_labels_list` (src/xychart/content_parser.rs lines 46-84). -/
def parse_labels_list (cs : List Char) : Option (List String × List Char) :=
  labelsLoop (cs.length + 1) cs []

/-- `x_axis_line` (src/xychart/content_parser.rs lines 86-94). -/
def x_axis_line (cs : List Char) : Option (XAxis × List Char) :=
  match tagP "x-axis".data cs with
  | none => none
  | some r1 =>
    match charP '[' (sp0 r1) with
    | none => none
    | some r2 =>
      match parse_labels_list r2 with
      | none => none
      | some (labels, r3) =>
        (charP ']' r3).map fun r4 => (XAxis.mk labels, r4)

/-- Modelled from the spec: the optional XYChart legend line
`legend [<label-list>]` (spec §4.3), whose parser is missing from
src/xychart/content_parser.rs although src/xychart/renderer.rs consumes the
resulting `legend` field; shaped exactly like `x_axis_line` with the
`legend` keyword and the shared label-list grammar. -/
def legend_line (cs : List Char) : Option (List String × List Char) :=
  match tagP "legend".data cs with
  | none => none
  | some r1 =>
    match charP '[' (sp0 r1) with
    | none => none
    | some r2 =>
      match parse_labels_list r2 with
      | none => none
      | some (labels, r3) =>
        (charP ']' r3).map fun r4 => (labels, r4)

/-- `y_axis_line` (src/xychart/content_parser.rs lines 116-135). -/
def y_axis_line (cs : List Char) : Option (YAxis × List Char) :=
  match tagP "y-axis".data cs with
  | none => none
  | some r1 =>
    match quotedStringDq (sp0 r1) with
    | none => none
    | some (title, r2) =>
      match numberP (sp0 r2) with
      | none => none
      | some (mn, r3) =>
        match tagP "-->".data (sp0 r3) with
        | none => none
        | some r4 =>
          (numberP (sp0 r4)).map fun r5 =>
            ({ title := String.mk title, min := mn, max := r5.1 }, r5.2)

/-- The number list of `series_line`:
`separated_list0(tuple((space0, char(','), space0)), number)`. -/
def numbersLoop : Nat → List Char → List ℚ → List ℚ × List Char
  | 0, cs, acc => (acc, cs)
  | fuel + 1, cs, acc =>
    match charP ',' (sp0 cs) with
    | none => (acc, cs)
    | some r1 =>
      match numberP (sp0 r1) with
      | none => (acc, cs)
      | some (v, r2) => numbersLoop fuel r2 (acc ++ [v])

/-- `separated_list0` over `number` with a comma separator. -/
def numberListP (cs : List Char) : List ℚ × List Char :=
  match numberP cs with
  | none => ([], cs)
  | some (v, rest) => numbersLoop (rest.length + 1) rest [v]

/-- The series keyword mapping of `series_line`
(src/xychart/content_parser.rs lines 144-148): `bar` and `line`, anything
else defaulting to `bar`. -/
def seriesTypeOf (s : List Char) : SeriesType :=
  if trimChars s = "bar".data then SeriesType.bar
  else if trimChars s = "line".data then SeriesType.line
  else SeriesType.bar

/-- `series_line` (src/xychart/content_parser.rs lines 137-151). -/
def series_line (cs : List Char) : Option (Series × List Char) :=
  match takeUntilAny [' ', '\t'] cs with
  | none => none
  | some (typeStr, r1) =>
    match charP '[' (sp0 r1) with
    | none => none
    | some r2 =>
      let nums := numberListP r2
      (charP ']' nums.2).map fun r3 =>
        ({ series_type := seriesTypeOf typeStr, data := nums.1 }, r3)

/-- The loop of `separated_list0(multispace0, series_line)`. -/
def seriesLoop : Nat → List Char → List Series → List Series × List Char
  | 0, cs, acc => (acc, cs)
  | fuel + 1, cs, acc =>
    match series_line (ms0 cs) with
    | none => (acc, cs)
    | some (s, rest) => seriesLoop fuel rest (acc ++ [s])

/-- `separated_list0(multispace0, series_line)`. -/
def seriesListP (cs : List Char) : List Series × List Char :=
  match series_line cs with
  | none => ([], cs)
  | some (s, rest) => seriesLoop (rest.length + 1) rest [s]

/-- `xy_header` (src/xychart/content_parser.rs lines 13-18): keyword,
whitespace, optional `title "<quoted>"`. -/
def xy_header (cs : List Char) : Option (Option String × List Char) :=
  match tagP "xychart-beta".data cs with
  | none => none
  | some r1 =>
    let r2 := ms0 r1
    match tagP "title ".data r2 with
    | none => some (none, r2)
    | some r3 =>
      match quotedStringDq r3 with
      | none => some (none, r2)
      | some (title, r4) => some (some (String.mk title), r4)

/-- `parse_xychart_content` (src/xychart/content_parser.rs lines 153-173)
with the optional legend line inserted between the title and the x-axis
line.  The legend step is Modelled from the spec (§4.3: optional
`legend [<label-list>]` after the optional title); the rest translates the
source. -/
def parse_xychart_content (input : List Char) (config : Option ChartConfig) :
    Option (XYChart × List Char) :=
  match xy_header input with
  | none => none
  | some (title, r1) =>
    let r2 := ms0 r1
    let leg : Option (List String) × List Char :=
      match legend_line r2 with
      | some (ls, rest) => (some ls, rest)
      | none => (none, r2)
    match x_axis_line (ms0 leg.2) with
    | none => none
    | some (xa, r3) =>
      match y_axis_line (ms0 r3) with
      | none => none
      | some (ya, r4) =>
        let ser := seriesListP (ms0 r4)
        some ({ config := config, title := title, legend := leg.1, x_axis := xa,
                y_axis := ya, series := ser.1 }, ms0 ser.2)

/-- `parse_xychart_content` applied to a `String` input. -/
def parseXYChartStr (input : String) (config : Option ChartConfig) :
    Option (XYChart × List Char) :=
  parse_xychart_content input.data config

/-! # Theorems -/

/-! ## Helper lemmas (shared; not claim theorems) -/

section Helpers

/-- Closed form of `columnPositions` for at least two columns. -/
theorem columnPositions_eq (width : ℚ) (ws : List ℚ) (hlen : 2 ≤ ws.length) :
    columnPositions width ws =
      (List.range ws.length).map (fun i =>
        if i = 0 then wimMargin + ws.headD 0 / 2
        else if i = ws.length - 1 then width - wimMargin - ws.getLastD 0 / 2
        else (wimMargin + ws.headD 0 / 2) + (i : ℚ) *
          ((width - wimMargin - ws.getLastD 0 / 2 - (wimMargin + ws.headD 0 / 2)) /
            ((ws.length : ℚ) - 1))) := by
  match ws, hlen with
  | w0 :: w1 :: rest, _ => rfl

/-- Every entry of `columnPositions` (two or more columns) is
`first + i * spacing`. -/
theorem columnPositions_get_formula (width : ℚ) (ws : List ℚ) (hlen : 2 ≤ ws.length)
    (i : Nat) (h : i < (columnPositions width ws).length) :
    (columnPositions width ws).get ⟨i, h⟩ =
      (wimMargin + ws.headD 0 / 2) + (i : ℚ) *
        ((width - wimMargin - ws.getLastD 0 / 2 - (wimMargin + ws.headD 0 / 2)) /
          ((ws.length : ℚ) - 1)) := by
  have hne : ((ws.length : ℚ) - 1) ≠ 0 := by
    have : (2 : ℚ) ≤ (ws.length : ℚ) := by exact_mod_cast hlen
    linarith
  rw [List.get_eq_getElem, List.getElem_of_eq (columnPositions_eq width ws hlen) h]
  simp only [List.getElem_map, List.getElem_range]
  by_cases h0 : i = 0
  · subst h0; simp
  · by_cases hN : i = ws.length - 1
    · subst hN
      simp only [if_neg h0, if_pos rfl]
      have hcast : ((ws.length - 1 : Nat) : ℚ) = (ws.length : ℚ) - 1 := by
        have : 1 ≤ ws.length := le_trans (by norm_num) hlen
        push_cast [Nat.cast_sub this]
        ring
      rw [hcast, mul_div_cancel₀ _ hne]
      ring_nf
      simp
    · simp [h0, hN]

/-- The slice labels are the data labels, in order. -/
theorem pieSlicesFrom_map_label (t : ℚ) (a : ℚ) (data : List PieChartData) :
    (pieSlicesFrom t a data).map PieSlice.label = data.map PieChartData.label := by
  induction data generalizing a with
  | nil => rfl
  | cons d rest ih => simp [pieSlicesFrom, ih]

/-- The slice spans are `value / total * 2`, in order. -/
theorem pieSlicesFrom_map_span (t : ℚ) (a : ℚ) (data : List PieChartData) :
    (pieSlicesFrom t a data).map PieSlice.span =
      data.map (fun d => d.value / t * 2) := by
  induction data generalizing a with
  | nil => rfl
  | cons d rest ih => simp [pieSlicesFrom, ih]

/-- The sum of the slice spans is the value sum divided by the total, times 2. -/
theorem pieSlicesFrom_span_sum (t : ℚ) (a : ℚ) (data : List PieChartData) :
    ((pieSlicesFrom t a data).map PieSlice.span).sum =
      (data.map PieChartData.value).sum / t * 2 := by
  rw [pieSlicesFrom_map_span]
  induction data with
  | nil => simp
  | cons d rest ih =>
    simp only [List.map_cons, List.sum_cons, ih]
    ring

/-- The first slice starts at the initial angle. -/
theorem pieSlicesFrom_head_start (t : ℚ) (a : ℚ) (data : List PieChartData)
    (h : 0 < (pieSlicesFrom t a data).length) :
    ((pieSlicesFrom t a data).get ⟨0, h⟩).startAngle = a := by
  cases data with
  | nil => simp [pieSlicesFrom] at h
  | cons d rest => rfl

/-- Each slice ends where it started plus its span. -/
theorem pieSlicesFrom_end_eq (t : ℚ) (a : ℚ) (data : List PieChartData) :
    ∀ s ∈ pieSlicesFrom t a data, s.endAngle = s.startAngle + s.span := by
  induction data generalizing a with
  | nil => intro s hs; simp [pieSlicesFrom] at hs
  | cons d rest ih =>
    intro s hs
    simp only [pieSlicesFrom, List.mem_cons] at hs
    rcases hs with rfl | hs
    · rfl
    · exact ih _ s hs

/-- Consecutive slices are adjacent: each starts where the previous ended. -/
theorem pieSlicesFrom_chain (t : ℚ) (data : List PieChartData) :
    ∀ (a : ℚ) (i : Nat) (hi : i + 1 < (pieSlicesFrom t a data).length),
      ((pieSlicesFrom t a data).get ⟨i + 1, hi⟩).startAngle =
        ((pieSlicesFrom t a data).get ⟨i, Nat.lt_of_succ_lt hi⟩).endAngle := by
  induction data with
  | nil => intro a i hi; simp [pieSlicesFrom] at hi
  | cons d rest ih =>
    intro a i hi
    cases i with
    | zero =>
      have hlen : 0 < (pieSlicesFrom t (a + d.value / t * 2) rest).length := by
        simpa [pieSlicesFrom] using hi
      have h1 : (pieSlicesFrom t a (d :: rest)).get ⟨1, hi⟩ =
          (pieSlicesFrom t (a + d.value / t * 2) rest).get ⟨0, hlen⟩ := rfl
      rw [h1, pieSlicesFrom_head_start]
      rfl
    | succ j =>
      have hj : j + 1 < (pieSlicesFrom t (a + d.value / t * 2) rest).length := by
        simpa [pieSlicesFrom] using hi
      exact ih (a + d.value / t * 2) j hj

/-- Success characterization of the validation loop. -/
theorem validateItems_ok_iff (cols : List String) (items : List WorkItem) :
    validateItems cols items = Except.ok () ↔
      ∀ it ∈ items, stateMatchesColumns cols it.from_state = true ∧
        stateMatchesColumns cols it.to_state = true := by
  induction items with
  | nil => simp [validateItems]
  | cons it rest ih =>
    by_cases h1 : stateMatchesColumns cols it.from_state
    · by_cases h2 : stateMatchesColumns cols it.to_state
      · simp [validateItems, h1, h2, ih]
      · simp [validateItems, h1, h2]
    · simp [validateItems, h1]

/-- Error characterization of the validation loop: the error comes from the
first offending item, with the exact message of the source. -/
theorem validateItems_error (cols : List String) (items : List WorkItem)
    (e : ValidationError) (h : validateItems cols items = Except.error e) :
    ∃ pre it post, items = pre ++ it :: post
      ∧ (∀ p ∈ pre, stateMatchesColumns cols p.from_state = true ∧
          stateMatchesColumns cols p.to_state = true)
      ∧ ((stateMatchesColumns cols it.from_state = false ∧
            e.message = invalidColumnMessage it.id it.from_state cols)
        ∨ (stateMatchesColumns cols it.from_state = true ∧
            stateMatchesColumns cols it.to_state = false ∧
            e.message = invalidColumnMessage it.id it.to_state cols)) := by
  induction items with
  | nil => simp [validateItems] at h
  | cons it rest ih =>
    by_cases h1 : stateMatchesColumns cols it.from_state
    · by_cases h2 : stateMatchesColumns cols it.to_state
      · rw [validateItems, if_neg (by simp [h1]), if_neg (by simp [h2])] at h
        obtain ⟨pre, it', post, heq, hpre, hcase⟩ := ih h
        refine ⟨it :: pre, it', post, by simp [heq], ?_, hcase⟩
        intro p hp
        rcases List.mem_cons.mp hp with rfl | hp'
        · exact ⟨h1, h2⟩
        · exact hpre p hp'
      · rw [validateItems, if_neg (by simp [h1]),
          if_pos (by simp [h2])] at h
        refine ⟨[], it, rest, rfl, by simp, Or.inr ⟨by simp [h1], by simp [h2], ?_⟩⟩
        have := (Except.error.injEq _ _).mp h.symm
        rw [this]
    · rw [validateItems, if_pos (by simp [h1])] at h
      refine ⟨[], it, rest, rfl, by simp, Or.inl ⟨by simp [h1], ?_⟩⟩
      have := (Except.error.injEq _ _).mp h.symm
      rw [this]

/-- A present lookup key has a pair in the list with that key. -/
theorem lookupVar_isSome_iff (m : List (String × String)) (k : String) :
    (lookupVar m k).isSome = true ↔ ∃ pr ∈ m, pr.1 = k := by
  unfold lookupVar
  constructor
  · intro h
    cases hf : List.find? (fun p => p.1 == k) m with
    | none => rw [hf] at h; simp at h
    | some pr =>
      refine ⟨pr, List.mem_of_find?_eq_some hf, ?_⟩
      have hp := List.find?_some hf
      simpa using hp
  · rintro ⟨pr, hmem, hk⟩
    cases hf : List.find? (fun p => p.1 == k) m with
    | none =>
      have := List.find?_eq_none.mp hf pr hmem
      simp [hk] at this
    | some q => rfl

/-- Every pair of `insertVar m k v` is a pair of `m` or the new binding. -/
theorem mem_insertVar (m : List (String × String)) (k v : String)
    (pr : String × String) (h : pr ∈ insertVar m k v) : pr ∈ m ∨ pr = (k, v) := by
  unfold insertVar at h
  by_cases hmem : m.any (fun p => p.1 == k)
  · rw [if_pos hmem] at h
    obtain ⟨q, hq, hfq⟩ := List.mem_map.mp h
    by_cases hqk : q.1 == k
    · rw [if_pos hqk] at hfq
      exact Or.inr hfq.symm
    · rw [if_neg hqk] at hfq
      exact Or.inl (hfq ▸ hq)
  · rw [if_neg hmem] at h
    rcases List.mem_append.mp h with h1 | h1
    · exact Or.inl h1
    · exact Or.inr (List.mem_singleton.mp h1)

/-- A key present after `insertVar` is the inserted key or was present before. -/
theorem lookupVar_insertVar_isSome (m : List (String × String)) (k v k2 : String)
    (h : (lookupVar (insertVar m k v) k2).isSome = true) :
    k2 = k ∨ (lookupVar m k2).isSome = true := by
  obtain ⟨pr, hpr, hk⟩ := (lookupVar_isSome_iff _ _).mp h
  rcases mem_insertVar m k v pr hpr with hin | rfl
  · exact Or.inr ((lookupVar_isSome_iff _ _).mpr ⟨pr, hin, hk⟩)
  · exact Or.inl (hk ▸ rfl)

/-- A key present after a nested flush is prefixed or was present before. -/
theorem lookupVar_nestedFlush (pfx : String) (m : List (String × String))
    (key val : List Char) (k : String)
    (h : (lookupVar (nestedFlush pfx m key val) k).isSome = true) :
    (lookupVar m k).isSome = true ∨ ∃ inner : String, k = pfx ++ "." ++ inner := by
  unfold nestedFlush at h
  by_cases hc : key ≠ [] ∧ val ≠ []
  · rw [if_pos hc] at h
    rcases lookupVar_insertVar_isSome _ _ _ _ h with hk | hm
    · exact Or.inr ⟨String.mk (trimChars key), hk⟩
    · exact Or.inl hm
  · rw [if_neg hc] at h
    exact Or.inl h

/-- Every key the nested-theme-variable loop adds to the map is the prefix
joined by `.` to some inner key. -/
theorem nestedLoop_keys (pfx : String) : ∀ (fuel : Nat) (cs : List Char)
    (st : NestedState) (m : List (String × String)) (k : String),
    (lookupVar (nestedLoop pfx fuel cs st m) k).isSome = true →
    (lookupVar m k).isSome = true ∨ ∃ inner : String, k = pfx ++ "." ++ inner := by
  intro fuel
  induction fuel with
  | zero =>
    intro cs st m k h
    rw [nestedLoop] at h
    exact lookupVar_nestedFlush pfx m st.key st.val k h
  | succ fuel ih =>
    intro cs st m k h
    cases cs with
    | nil =>
      rw [nestedLoop] at h
      · exact lookupVar_nestedFlush pfx m st.key st.val k h
      · omega
    | cons c rest =>
      rw [nestedLoop] at h
      dsimp only at h
      split_ifs at h
      all_goals
        first
        | exact ih _ _ _ _ h
        | (rcases ih _ _ _ _ h with hm | hinner
           · exact lookupVar_nestedFlush pfx m st.key st.val k hm
           · exact Or.inr hinner)

end Helpers

/-- C6 counterexample: the claim asserts monotonically non-decreasing column
x-positions for every canvas width, but at canvas width 10 a two-column
chart (labels "A" and "B", character-count fallback widths 8 each) gets
positions `[24, -14]`, which decrease: the first position
`margin + w0 / 2 = 24` exceeds the last `width - margin - w1 / 2 = -14`. -/
theorem column_positions_counterexample :
    columnPositions 10 (columnWidthsFallback ["A", "B"]) = [24, -14]
    ∧ ¬ ((24 : ℚ) ≤ -14) := by
  constructor
  · simp [columnPositions, columnWidthsFallback, wimMargin, List.range_succ]
    norm_num [show ("A".length = 1) from rfl, show ("B".length = 1) from rfl]
  · norm_num

/-- C6 amended: for N ≥ 2 columns and any canvas width large enough that the
first fixed position does not exceed the last
(`margin + w0 / 2 ≤ width - margin - w_last / 2` — the counterexample shows
the unconditional claim fails for narrow widths), every position equals
`first + i * spacing`, so the positions are monotonically non-decreasing,
the first equals `margin + w0 / 2`, the last equals
`width - margin - w_last / 2`, and interior columns are spaced equally
between them; a single column is centered at `width / 2`
(unconditionally). -/
theorem column_positions_amended (width : ℚ) (ws : List ℚ)
    (hlen : 2 ≤ ws.length)
    (hfit : wimMargin + ws.headD 0 / 2 ≤ width - wimMargin - ws.getLastD 0 / 2) :
    (columnPositions width ws).length = ws.length
    ∧ (∀ (i : Nat) (h : i < (columnPositions width ws).length),
        (columnPositions width ws).get ⟨i, h⟩ =
          (wimMargin + ws.headD 0 / 2) + (i : ℚ) *
            ((width - wimMargin - ws.getLastD 0 / 2 - (wimMargin + ws.headD 0 / 2)) /
              ((ws.length : ℚ) - 1)))
    ∧ (columnPositions width ws).head? = some (wimMargin + ws.headD 0 / 2)
    ∧ (columnPositions width ws).getLast? = some (width - wimMargin - ws.getLastD 0 / 2)
    ∧ (columnPositions width ws).Pairwise (· ≤ ·)
    ∧ (∀ w : ℚ, columnPositions width [w] = [width / 2]) := by
  have hlenq : (2 : ℚ) ≤ (ws.length : ℚ) := by exact_mod_cast hlen
  have hden : (0 : ℚ) < (ws.length : ℚ) - 1 := by linarith
  have hsp : 0 ≤ (width - wimMargin - ws.getLastD 0 / 2 - (wimMargin + ws.headD 0 / 2)) /
      ((ws.length : ℚ) - 1) :=
    div_nonneg (by linarith) (le_of_lt hden)
  have hlen2 : (columnPositions width ws).length = ws.length := by
    rw [columnPositions_eq width ws hlen]; simp
  have hpos : 0 < (columnPositions width ws).length := by rw [hlen2]; omega
  have hform := columnPositions_get_formula width ws hlen
  have hcast : ((ws.length - 1 : Nat) : ℚ) = (ws.length : ℚ) - 1 := by
    have h1 : 1 ≤ ws.length := le_trans (by norm_num) hlen
    push_cast [Nat.cast_sub h1]
    ring
  refine ⟨hlen2, hform, ?_, ?_, ?_, fun w => rfl⟩
  · rw [List.head?_eq_getElem?, List.getElem?_eq_getElem hpos]
    have h0 := hform 0 hpos
    rw [List.get_eq_getElem] at h0
    rw [h0]
    norm_num
  · have hlast : (columnPositions width ws).length - 1 < (columnPositions width ws).length := by
      omega
    rw [List.getLast?_eq_getElem?, List.getElem?_eq_getElem hlast]
    have hN := hform ((columnPositions width ws).length - 1) hlast
    rw [List.get_eq_getElem] at hN
    rw [hN, hlen2, hcast, mul_div_cancel₀ _ (ne_of_gt hden)]
    ring_nf
  · rw [List.pairwise_iff_getElem]
    intro i j hi hj hij
    have hfi := hform i hi
    have hfj := hform j hj
    rw [List.get_eq_getElem] at hfi hfj
    rw [hfi, hfj]
    have hij' : (i : ℚ) ≤ (j : ℚ) := by exact_mod_cast le_of_lt hij
    nlinarith

/-- C6 witness: the amended theorem applied to a concrete two-column chart
(widths 8 and 8, canvas width 300). -/
theorem column_positions_amended_witness :
    (columnPositions 300 [8, 8]).head? = some (wimMargin + ([8, 8] : List ℚ).headD 0 / 2)
    ∧ (columnPositions 300 [8, 8]).Pairwise (· ≤ ·) := by
  have h := column_positions_amended 300 [8, 8] (by norm_num)
    (by norm_num [wimMargin])
  exact ⟨h.2.2.1, h.2.2.2.2.1⟩

/-- C9: after optional leading whitespace, the chart-type detector tries the
keywords in the fixed order work-item-movement, xychart-beta, pie.  Any
input beginning with the work-item-movement keyword is classified as
WorkItemMovement (never mis-matched against the pie keyword); an XY or pie
classification certifies that every earlier keyword failed to match; and
when none of the three keywords is a prefix of the whitespace-stripped
input, the detector returns the terminal UnknownChartType error. -/
theorem detect_chart_type_spec :
    (∀ rest : List Char,
      detect_chart_type (wimKeyword ++ rest) =
        Except.ok (rest, ChartType.workItemMovement))
    ∧ (∀ (input : List Char) (out : List Char × ChartType),
        detect_chart_type input = Except.ok out →
        (out.2 = ChartType.xy →
          xyKeyword.isPrefixOf (input.dropWhile isNomMultispace) = true ∧
            wimKeyword.isPrefixOf (input.dropWhile isNomMultispace) = false)
        ∧ (out.2 = ChartType.pie →
          pieKeyword.isPrefixOf (input.dropWhile isNomMultispace) = true ∧
            wimKeyword.isPrefixOf (input.dropWhile isNomMultispace) = false ∧
            xyKeyword.isPrefixOf (input.dropWhile isNomMultispace) = false))
    ∧ (∀ input : List Char,
        wimKeyword.isPrefixOf (input.dropWhile isNomMultispace) = false →
        xyKeyword.isPrefixOf (input.dropWhile isNomMultispace) = false →
        pieKeyword.isPrefixOf (input.dropWhile isNomMultispace) = false →
        detect_chart_type input = Except.error ChartDetectError.unknownChartType) := by
  refine ⟨?_, ?_, ?_⟩
  · intro rest
    unfold detect_chart_type
    have hdrop : (wimKeyword ++ rest).dropWhile isNomMultispace = wimKeyword ++ rest := by
      show (('w' :: "ork-item-movement".data) ++ rest).dropWhile isNomMultispace = _
      simp [List.dropWhile, isNomMultispace]
      rfl
    rw [hdrop]
    have hpre : wimKeyword.isPrefixOf (wimKeyword ++ rest) = true :=
      List.isPrefixOf_iff_prefix.mpr (List.prefix_append _ _)
    simp [hpre, List.drop_left]
  · intro input out h
    unfold detect_chart_type at h
    by_cases h1 : wimKeyword.isPrefixOf (input.dropWhile isNomMultispace)
    · simp [h1] at h
      refine ⟨fun hxy => ?_, fun hpie => ?_⟩ <;> rw [← h] at * <;> simp_all
    · by_cases h2 : xyKeyword.isPrefixOf (input.dropWhile isNomMultispace)
      · simp [h1, h2] at h
        refine ⟨fun hxy => ⟨h2, by simp [h1]⟩, fun hpie => ?_⟩
        rw [← h] at hpie; simp_all
      · by_cases h3 : pieKeyword.isPrefixOf (input.dropWhile isNomMultispace)
        · simp [h1, h2, h3] at h
          refine ⟨fun hxy => ?_, fun hpie => ⟨h3, by simp [h1], by simp [h2]⟩⟩
          rw [← h] at hxy; simp_all
        · simp [h1, h2, h3] at h
  · intro input h1 h2 h3
    unfold detect_chart_type
    simp [h1, h2, h3]

/-- C9 witness: a concrete input matching none of the keywords yields the
terminal UnknownChartType error. -/
theorem detect_chart_type_spec_witness :
    detect_chart_type "flowchart".data = Except.error ChartDetectError.unknownChartType :=
  detect_chart_type_spec.2.2 "flowchart".data (by decide) (by decide) (by decide)

/-- C1 (code evaluated at the failing input): the slice loop of
`render_pie_chart_svg` has no guard on a zero total.  An empty dataset does
degrade to an empty chart (no slices), but a non-empty all-zero dataset
still emits one slice per datum — over `f64` each of those slices has
geometry built from `0.0 / 0.0 = NaN` — contradicting the claim that a zero
total draws no slices and performs no division by zero. -/
theorem pie_zero_total_still_emits_slices :
    pieSlices { config := none, show_data := false, title := none, data := [] } = []
    ∧ pieTotal { config := none, show_data := false, title := none,
                 data := [{ label := "a", value := 0 }] } = 0
    ∧ (pieSlices { config := none, show_data := false, title := none,
                   data := [{ label := "a", value := 0 }] }).length = 1 := by
  refine ⟨rfl, by simp [pieTotal], rfl⟩

/-- C2 (legend line Modelled from the spec): the XYChart dialect accepts an
optional `legend [<label-list>]` line after the title; parsing an input with
such a line succeeds and the document carries the labels as an ordered list,
while the same input without the line yields `legend = none`. -/
theorem xychart_legend_optional :
    parseXYChartStr
        "xychart-beta\n  title \x22T\x22\n  legend [alpha, beta]\n  x-axis [a, b]\n  y-axis \x22Y\x22 0 --> 10\n  bar [1, 2]\n"
        none =
      some ({ config := none, title := some "T", legend := some ["alpha", "beta"],
              x_axis := { labels := ["a", "b"] },
              y_axis := { title := "Y", min := 0, max := 10 },
              series := [{ series_type := SeriesType.bar, data := [1, 2] }] }, [])
    ∧ (parseXYChartStr
          "xychart-beta\n  title \x22T\x22\n  x-axis [a, b]\n  y-axis \x22Y\x22 0 --> 10\n  bar [1, 2]\n"
          none).map (fun r => r.1.legend) = some none := by
  constructor
  · rfl
  · rfl

/-- C3 counterexample: the claim asserts that replacing single-quoted
keys/values by double-quoted equivalents preserves the extracted
configuration, but `config_line` matches the top-level theme key only in the
single-quoted spelling: the single-quoted header extracts theme "dark" while
its double-quoted equivalent falls back to "base". -/
theorem config_quote_style_counterexample :
    (configLineStr "%%\x7binit: \x7b\x27theme\x27: \x27dark\x27\x7d\x7d%%").map
        (fun r => r.1.theme) = some "dark"
    ∧ (configLineStr "%%\x7binit: \x7b\x22theme\x22: \x22dark\x22\x7d\x7d%%").map
        (fun r => r.1.theme) = some "base"
    ∧ ("dark" : String) ≠ "base" := by
  decide

/-- C3 amended: the top-level keys `theme`, `width` and `themeVariables` are
recognized only in their single-quoted spelling — double-quoting them loses
them (theme falls back to "base", width to none, theme variables to the
empty map) — while inside the themeVariables object both quote styles are
tolerated interchangeably for entry keys and values, shown on a
representative header. -/
theorem config_quote_style_amended :
    (configLineStr "%%\x7binit: \x7b\x22theme\x22: \x22dark\x22\x7d\x7d%%").map
        (fun r => r.1.theme) = some "base"
    ∧ (configLineStr "%%\x7binit: \x7b\x22width\x22: 600\x7d\x7d%%").map
        (fun r => r.1.width) = some none
    ∧ (configLineStr "%%\x7binit: \x7b\x27width\x27: 600\x7d\x7d%%").map
        (fun r => r.1.width) = some (some 600)
    ∧ (configLineStr "%%\x7binit: \x7b\x22themeVariables\x22: \x7b\x27a\x27: \x27x\x27\x7d\x7d\x7d%%").map
        (fun r => r.1.theme_variables) = some []
    ∧ (configLineStr "%%\x7binit: \x7b\x27themeVariables\x27: \x7b\x27a\x27: \x27x\x27\x7d\x7d\x7d%%").map
        (fun r => r.1.theme_variables) =
      (configLineStr "%%\x7binit: \x7b\x27themeVariables\x27: \x7b\x22a\x22: \x22x\x22\x7d\x7d\x7d%%").map
        (fun r => r.1.theme_variables)
    ∧ (configLineStr "%%\x7binit: \x7b\x27themeVariables\x27: \x7b\x22a\x22: \x22x\x22\x7d\x7d\x7d%%").map
        (fun r => r.1.theme_variables) = some [("a", "x")] := by
  decide

/-- C8: every key the nested flattening pass inserts joins the outer key to
an inner key with a `.` separator (any key present after
`parse_nested_theme_variables` was either already present or has the form
`prefix ++ "." ++ inner`); and concretely a header with
`themeVariables: \x7b'xyChart': \x7b'titleFontSize': '20'\x7d\x7d` yields
`theme_variables["xyChart.titleFontSize"] = "20"`. -/
theorem theme_variables_flattening :
    (∀ (content : List Char) (pfx : String) (m : List (String × String)) (k : String),
      (lookupVar (parse_nested_theme_variables content pfx m) k).isSome = true →
      (lookupVar m k).isSome = true ∨ ∃ inner : String, k = pfx ++ "." ++ inner)
    ∧ (configLineStr
        "%%\x7binit: \x7b\x27themeVariables\x27: \x7b\x27xyChart\x27: \x7b\x27titleFontSize\x27: \x2720\x27\x7d\x7d\x7d\x7d%%").map
        (fun r => lookupVar r.1.theme_variables "xyChart.titleFontSize") =
      some (some "20") := by
  constructor
  · intro content pfx m k h
    exact nestedLoop_keys pfx (content.length + 1) content _ m k h
  · decide

/-- C8 witness: the general flattening property applied to the concrete
nested content `'a': 'x'` under the outer key `p`, at the key `p.a` it
produces. -/
theorem theme_variables_flattening_witness :
    (lookupVar ([] : List (String × String)) "p.a").isSome = true
    ∨ ∃ inner : String, "p.a" = "p" ++ "." ++ inner :=
  theme_variables_flattening.1 "\x27a\x27: \x27x\x27".data "p" [] "p.a" (by decide)

/-- C5: validation succeeds iff every item's `from_state` and `to_state`
case-insensitively equals some entry of `columns`; when it fails, the error
comes from the first violating item in order, and its message is exactly the
source's format string naming the item id, the offending state and the
debug-formatted full column list.  The source takes the chart by shared
reference and returns only the `Result`, so it never mutates the parsed
document; the model is accordingly a pure function of the chart. -/
theorem validate_work_item_movement_spec (chart : WorkItemMovement) :
    (validate_work_item_movement chart = Except.ok () ↔
      ∀ it ∈ chart.items,
        stateMatchesColumns chart.columns it.from_state = true ∧
        stateMatchesColumns chart.columns it.to_state = true)
    ∧ (∀ e : ValidationError, validate_work_item_movement chart = Except.error e →
        ∃ pre it post, chart.items = pre ++ it :: post
          ∧ (∀ p ∈ pre, stateMatchesColumns chart.columns p.from_state = true ∧
              stateMatchesColumns chart.columns p.to_state = true)
          ∧ ((stateMatchesColumns chart.columns it.from_state = false ∧
                e.message = invalidColumnMessage it.id it.from_state chart.columns)
            ∨ (stateMatchesColumns chart.columns it.from_state = true ∧
                stateMatchesColumns chart.columns it.to_state = false ∧
                e.message = invalidColumnMessage it.id it.to_state chart.columns))) := by
  exact ⟨validateItems_ok_iff chart.columns chart.items,
    fun e he => validateItems_error chart.columns chart.items e he⟩

/-- C5 witness: a chart with one item whose `from_state` matches column
"Done" only case-insensitively (and validates) while its `to_state` "Nope"
matches nothing; the error names the item, the state and the columns. -/
theorem validate_work_item_movement_spec_witness :
    ∃ pre it post,
      ({ config := none, title := none, columns := ["Done"],
         items := [{ id := "PJ-1", from_state := "done", from_points := 0,
                     to_state := "Nope", to_points := 1 }] } : WorkItemMovement).items =
        pre ++ it :: post
      ∧ (∀ p ∈ pre, stateMatchesColumns ["Done"] p.from_state = true ∧
          stateMatchesColumns ["Done"] p.to_state = true)
      ∧ ((stateMatchesColumns ["Done"] it.from_state = false ∧
            (⟨invalidColumnMessage "PJ-1" "Nope" ["Done"]⟩ : ValidationError).message =
              invalidColumnMessage it.id it.from_state ["Done"])
        ∨ (stateMatchesColumns ["Done"] it.from_state = true ∧
            stateMatchesColumns ["Done"] it.to_state = false ∧
            (⟨invalidColumnMessage "PJ-1" "Nope" ["Done"]⟩ : ValidationError).message =
              invalidColumnMessage it.id it.to_state ["Done"])) :=
  (validate_work_item_movement_spec
      { config := none, title := none, columns := ["Done"],
        items := [{ id := "PJ-1", from_state := "done", from_points := 0,
                    to_state := "Nope", to_points := 1 }] }).2
    ⟨invalidColumnMessage "PJ-1" "Nope" ["Done"]⟩ rfl

/-- C10: the renderer finds column indices by exact case-sensitive equality
with a silent fallback to index 0: for an item whose state matches a column
only case-insensitively (so it passes validation but has no exact match),
the index is 0, the endpoint is positioned at the first column's
x-position, and the row advancement used by the total-height computation
compares that fallback index 0 with the other endpoint's index. -/
theorem column_index_fallback_spec (cols : List String) (positions : List ℚ)
    (it : WorkItem)
    (_hci : stateMatchesColumns cols it.from_state = true)
    (hex : cols.findIdx? (fun c => c == it.from_state) = none) :
    columnIndexOf cols it.from_state = 0
    ∧ itemEndpointX cols positions it.from_state = positions.getD 0 0
    ∧ rowAdvance cols it =
        (if columnIndexOf cols it.to_state = 0 then
          verticalArrowSpacing + wimItemHeight
        else wimItemHeight)
    ∧ wimCalcY cols 0 [it] =
        (if columnIndexOf cols it.to_state = 0 then
          verticalArrowSpacing + wimItemHeight
        else wimItemHeight) := by
  have h0 : columnIndexOf cols it.from_state = 0 := by
    simp [columnIndexOf, hex]
  have hadv : rowAdvance cols it =
      (if columnIndexOf cols it.to_state = 0 then
        verticalArrowSpacing + wimItemHeight
      else wimItemHeight) := by
    rw [rowAdvance, h0]
    by_cases ht : columnIndexOf cols it.to_state = 0
    · rw [if_pos ht.symm, if_pos ht]
    · rw [if_neg (fun h => ht h.symm), if_neg ht]
  refine ⟨h0, ?_, hadv, ?_⟩
  · simp [itemEndpointX, h0]
  · rw [wimCalcY, List.foldl_cons, List.foldl_nil, hadv, zero_add]

/-- C10 witness: with columns `["To Do", "Done"]`, the state "done" passes
case-insensitive validation but has no exact match, so its endpoint falls
back to column 0; with `to_state` "To Do" (exactly column 0) the item is
treated as a vertical movement by the height computation. -/
theorem column_index_fallback_spec_witness :
    columnIndexOf ["To Do", "Done"] "done" = 0
    ∧ itemEndpointX ["To Do", "Done"] [100, 200] "done" = ([100, 200] : List ℚ).getD 0 0
    ∧ wimCalcY ["To Do", "Done"] 0
        [{ id := "PJ-9", from_state := "done", from_points := 2,
           to_state := "To Do", to_points := 3 }] =
        (if columnIndexOf ["To Do", "Done"] "To Do" = 0 then
          verticalArrowSpacing + wimItemHeight
        else wimItemHeight) := by
  have h := column_index_fallback_spec ["To Do", "Done"] [100, 200]
    { id := "PJ-9", from_state := "done", from_points := 2,
      to_state := "To Do", to_points := 3 } (by decide) (by decide)
  exact ⟨h.1, h.2.1, h.2.2.2⟩

/-- C7: the layout generates exactly 11 y-axis tick values, the i-th being
`max - i * (max - min) / 10`, so the sequence starts at `max`, ends at
`min`, and is strictly decreasing whenever `min < max`; and the y-axis
label space equals the fixed paddings plus the maximum measured width of
the labels of exactly these 11 values (the measurement loop at lines 69-79
of src/xychart/renderer.rs recomputes the same interpolation as the tick
loop at lines 418-421). -/
theorem y_axis_ticks_spec (y : YAxis) :
    (yTickValues y).length = 11
    ∧ (∀ (i : Nat) (h : i < (yTickValues y).length),
        (yTickValues y).get ⟨i, h⟩ = y.max - (i : ℚ) * (y.max - y.min) / 10)
    ∧ (yTickValues y).head? = some y.max
    ∧ (yTickValues y).getLast? = some y.min
    ∧ (y.min < y.max →
        ∀ (i : Nat) (h : i + 1 < (yTickValues y).length),
          (yTickValues y).get ⟨i + 1, h⟩ < (yTickValues y).get ⟨i, Nat.lt_of_succ_lt h⟩)
    ∧ (∀ measure : String → ℚ,
        yAxisLabelSpace measure y = maxYLabelWidth measure y + yAxisFixedSpace)
    ∧ (∀ measure : String → ℚ,
        maxYLabelWidth measure y =
          ((yTickValues y).map (fun v => measure (toString (ratTruncToInt v)))).foldl
            max 0) := by
  have hlen : (yTickValues y).length = 11 := by
    simp only [yTickValues, List.length_map, List.length_range]
  have hform : ∀ (i : Nat) (h : i < (yTickValues y).length),
      (yTickValues y).get ⟨i, h⟩ = y.max - (i : ℚ) * (y.max - y.min) / 10 := by
    intro i h
    rw [List.get_eq_getElem]
    simp only [yTickValues, List.getElem_map, List.getElem_range]
  refine ⟨hlen, hform, ?_, ?_, ?_, fun _ => rfl, ?_⟩
  · have hpos : 0 < (yTickValues y).length := by rw [hlen]; omega
    rw [List.head?_eq_getElem?, List.getElem?_eq_getElem hpos]
    have h0 := hform 0 hpos
    rw [List.get_eq_getElem] at h0
    rw [h0]
    norm_num
  · have hlast : (yTickValues y).length - 1 < (yTickValues y).length := by rw [hlen]; omega
    rw [List.getLast?_eq_getElem?, List.getElem?_eq_getElem hlast]
    have hN := hform ((yTickValues y).length - 1) hlast
    rw [List.get_eq_getElem] at hN
    rw [hN, hlen]
    push_cast
    ring
  · intro hlt i h
    rw [hform (i + 1) h, hform i (Nat.lt_of_succ_lt h)]
    have key : ((i + 1 : Nat) : ℚ) * (y.max - y.min) / 10 -
        (i : ℚ) * (y.max - y.min) / 10 = (y.max - y.min) / 10 := by
      push_cast
      ring
    have hd : 0 < (y.max - y.min) / 10 := by linarith
    linarith [key, hd]
  · intro measure
    rw [maxYLabelWidth, yTickValues, List.map_map]
    rfl

/-- C7 witness: for the y-axis 0 → 10, the last tick value is the minimum 0
and tick 1 is strictly below tick 0. -/
theorem y_axis_ticks_spec_witness :
    (yTickValues { title := "Y", min := 0, max := 10 }).getLast? = some (0 : ℚ)
    ∧ (yTickValues { title := "Y", min := 0, max := 10 }).get ⟨1, by decide⟩ <
        (yTickValues { title := "Y", min := 0, max := 10 }).get ⟨0, by decide⟩ := by
  have h := y_axis_ticks_spec { title := "Y", min := 0, max := 10 }
  exact ⟨h.2.2.2.1, h.2.2.2.2.1 (by norm_num) 0 (by decide)⟩

/-- C4: for a pie dataset with strictly positive total, the slices are swept
in input data order (their labels are the data labels in order), the first
slice starts at −90° (model angle `-(1/2)` in units of π), every slice spans
`2π × value / total` (model span `value / total * 2`), consecutive slices
are adjacent, and the spans sum to exactly `2π` (model value `2`) — the
exact rational identity implying the within-floating-point-epsilon claim. -/
theorem pie_slices_spec (p : PieChart) (h : 0 < pieTotal p) :
    ((pieSlices p).map PieSlice.label = p.data.map PieChartData.label)
    ∧ (∀ h0 : 0 < (pieSlices p).length,
        ((pieSlices p).get ⟨0, h0⟩).startAngle = -(1/2 : ℚ))
    ∧ ((pieSlices p).map PieSlice.span =
        p.data.map (fun d => d.value / pieTotal p * 2))
    ∧ (∀ s ∈ pieSlices p, s.endAngle = s.startAngle + s.span)
    ∧ (∀ (i : Nat) (hi : i + 1 < (pieSlices p).length),
        ((pieSlices p).get ⟨i + 1, hi⟩).startAngle =
          ((pieSlices p).get ⟨i, Nat.lt_of_succ_lt hi⟩).endAngle)
    ∧ ((pieSlices p).map PieSlice.span).sum = 2 := by
  refine ⟨pieSlicesFrom_map_label _ _ _, ?_, pieSlicesFrom_map_span _ _ _,
    pieSlicesFrom_end_eq _ _ _, fun i hi => pieSlicesFrom_chain _ _ _ i hi, ?_⟩
  · intro h0
    exact pieSlicesFrom_head_start _ _ _ h0
  · rw [pieSlices, pieSlicesFrom_span_sum]
    rw [show (p.data.map PieChartData.value).sum = pieTotal p from rfl]
    rw [div_self (ne_of_gt h)]
    ring

/-- C4 witness: the slice theorem applied to the dataset
`[("a", 1), ("b", 3)]` with total 4. -/
theorem pie_slices_spec_witness :
    ((pieSlices { config := none, show_data := false, title := none,
                  data := [{ label := "a", value := 1 },
                           { label := "b", value := 3 }] }).map PieSlice.span).sum = 2
    ∧ (pieSlices { config := none, show_data := false, title := none,
                   data := [{ label := "a", value := 1 },
                            { label := "b", value := 3 }] }).map PieSlice.label =
        ["a", "b"] := by
  have h := pie_slices_spec
    { config := none, show_data := false, title := none,
      data := [{ label := "a", value := 1 }, { label := "b", value := 3 }] }
    (by simp [pieTotal]; norm_num)
  refine ⟨h.2.2.2.2.2, ?_⟩
  rw [h.1]
  rfl

end Pisnge
